import Mathlib

/-
Verification development for the Secure_Calculator_Pro expression core.

The program's core (class SafeEvaluator and the entry point
FormulaCalculator.calculate) is shallowly embedded below:

* `sanitize_input` embeds SafeEvaluator.sanitize_input (whitespace removal via
  Python's `''.join(expr.split())`, then the two fullwidth-parenthesis
  replacements);
* `is_safe_expression` embeds SafeEvaluator.is_safe_expression, i.e. the
  semantics of Python's `re.match(r'^[\d+\-*\/%().,a-zA-Z!^&=<>|~]+$', expr)`,
  including the fact that `$` in Python also matches just before one trailing
  newline;
* `safe_dict`, `parseExpr`, `evalAst`, `applyBuiltin`, `evaluate` embed what
  `eval(expr, \x7b'__builtins__': None\x7d, eval_dict)` does on the fragment of
  Python expressions reachable through the validated character set: numeric
  literals, bare names, unary plus and minus, the binary operators + - * / % **,
  parenthesised grouping, call syntax f(a, b) and attribute access x.y.
  Python constructs outside this fragment (comparisons, boolean operators,
  conditional expressions, tuples, ...) are mapped to a parse error; no claim
  below depends on them.  IEEE-754 doubles are modelled exactly as rationals
  where arithmetic is exact (literals, + - * on ints, the integer builtins);
  transcendental builtins (sqrt, exp, log, trig, ...) return the uninterpreted
  value `Value.sym name` after their Python domain checks, since their
  bit-exact double results are outside a rational model.  `Value.float` holds
  the exact rational value of the corresponding double; `math.pi`, `math.e`
  and `math.tau` are the exact dyadic rationals of those doubles;
* `calculate` embeds FormulaCalculator.calculate: strip, the `'=' in expr`
  assignment branch (split at the first '=' with no '==' special case),
  Python's str.isidentifier check on the candidate name, and the table update.

Recursion in the parser and evaluator is fuel-indexed (fuel `8 * (length + 1)`
is always sufficient since every recursive step consumes input), and the
parser threads the parenthesis nesting level to model CPython's tokenizer
bound (MAXLEVEL = 200, the SyntaxError "too many nested parentheses"); the fuel
error `Err.noFuel` is an artifact of the embedding, unreachable from the
entry points.  The source wraps every internal exception in a single
ValueError; the `Err` type keeps the distinct exception kinds that produce
the distinct messages.
-/

namespace SecureCalc

/-- Whitespace for Python's `str.split()` / `str.strip()` / `str.isspace`:
ASCII whitespace plus the common Unicode space characters. -/
def pyIsSpace (c : Char) : Bool :=
  c = ' ' || c = '\t' || c = '\n' || c = '\r' || c = '\u000B' || c = '\u000C' ||
  c = '\u001C' || c = '\u001D' || c = '\u001E' || c = '\u001F' ||
  c = '\u0085' || c = '\u00A0' || c = '\u1680' ||
  ('\u2000' ≤ c && c ≤ '\u200A') ||
  c = '\u2028' || c = '\u2029' || c = '\u202F' || c = '\u205F' || c = '\u3000'

/-- One character of the allow-list character class
`[\d+\-*\/%().,a-zA-Z!^&=<>|~]` of SafeEvaluator.is_safe_expression
(`\d` modelled as the ASCII decimal digits). -/
def isSafeChar (c : Char) : Bool :=
  c.isDigit || c.isAlpha ||
  c = '+' || c = '-' || c = '*' || c = '/' || c = '%' || c = '(' || c = ')' ||
  c = '.' || c = ',' || c = '!' || c = '^' || c = '&' || c = '=' || c = '<' ||
  c = '>' || c = '|' || c = '~'

/-- Python `str.split()` (no separator): the maximal runs of non-whitespace
characters, in order.  Fuel-indexed; fuel `length + 1` is sufficient. -/
def pySplitAux : Nat → List Char → List (List Char)
  | 0, _ => []
  | _ + 1, [] => []
  | f + 1, c :: cs =>
    if pyIsSpace c then pySplitAux f cs
    else (c :: cs.takeWhile (fun x => !pyIsSpace x)) ::
      pySplitAux f (cs.dropWhile (fun x => !pyIsSpace x))

/-- Python `''.join(pieces)` on a list of character lists. -/
def pyJoin (ls : List (List Char)) : List Char := ls.foldr (· ++ ·) []

/-- Embeds `SafeEvaluator.sanitize_input`:
`expr = ''.join(expr.split())` followed by
`expr.replace('（', '(').replace('）', ')')`.
`str.replace` replaces every occurrence; for a single-character pattern and
replacement it is a character map. -/
def sanitize_input (expr : String) : String :=
  let joined := pyJoin (pySplitAux (expr.toList.length + 1) expr.toList)
  let r1 := joined.map (fun c => if c = '（' then '(' else c)
  String.mk (r1.map (fun c => if c = '）' then ')' else c))

/-- Modelled from the spec (§4.1), for comparison with `sanitize_input`:
"Removes all whitespace characters anywhere in the string", "Replaces
full-width parenthesis glyphs (（, ）) with ASCII (, )", "No other
transformation". -/
def sanitizeSpec (raw : String) : String :=
  String.mk ((raw.toList.filter (fun c => !pyIsSpace c)).map
    (fun c => if c = '（' then '(' else if c = '）' then ')' else c))

/-- Embeds `SafeEvaluator.is_safe_expression`, i.e. the semantics of
`re.match(r'^[\d+\-*\/%().,a-zA-Z!^&=<>|~]+$', expr) is not None`.
The regex matches iff some k ≥ 1 of the leading characters are all in the
class and position k satisfies `$`.  Without re.MULTILINE, `$` matches at the
end of the string or just before a newline that ends the string.  Since the
newline is not in the class, the match succeeds exactly when the maximal
leading run of class characters is nonempty and reaches either the end of the
string or the position just before one trailing newline. -/
def is_safe_expression (s : String) : Bool :=
  let cs := s.toList
  let run := (cs.takeWhile isSafeChar).length
  0 < run && (run = cs.length || (cs.getLast? = some '\n' && run = cs.length - 1))

/-- Python `str.strip()`: remove leading and trailing whitespace. -/
def pyStrip (s : String) : String :=
  String.mk (((s.toList.dropWhile pyIsSpace).reverse.dropWhile pyIsSpace).reverse)

/-- Python `str.isidentifier()` restricted to ASCII strings: nonempty, first
character a letter or underscore, the rest letters, digits or underscores.
(Python additionally accepts non-ASCII identifier characters; every string
the claims touch is ASCII.) -/
def pyIsIdentifier (s : String) : Bool :=
  match s.toList with
  | [] => false
  | c :: cs => (c.isAlpha || c = '_') && cs.all (fun x => x.isAlphanum || x = '_')

/-- Python `expr.split('=', 1)` on a string, as the decomposition at the first
'=': `some (before, after)` when '=' occurs, `none` otherwise (mirroring the
`'=' in expr` test of FormulaCalculator.calculate). -/
def breakAtEq : List Char → Option (List Char × List Char)
  | [] => Option.none
  | c :: cs =>
    if c = '=' then Option.some ([], cs)
    else
      match breakAtEq cs with
      | Option.some (a, b) => Option.some (c :: a, b)
      | Option.none => Option.none

/-- Values of the evaluation, i.e. the Python objects an expression of the
modelled fragment can produce: ints, finite floats (as their exact rational
values), bools, None, math.inf, math.nan, the function objects stored in
safe_dict, and `sym name`, the uninterpreted double returned by a
transcendental builtin (see the header comment). -/
inductive Value where
  | int : Int → Value
  | float : Rat → Value
  | bool : Bool → Value
  | none : Value
  | inf : Value
  | nan : Value
  | builtin : String → Value
  | sym : String → Value
deriving Repr, DecidableEq

/-- The exception kinds `eval` can raise on the modelled fragment (the source
wraps each of them into one ValueError with a distinguishing message).
`tooManyNested` is the tokenizer SyntaxError "too many nested parentheses".
`noFuel` is the out-of-fuel artifact of the embedding, unreachable from the
entry points; `notModelled` marks host-float behaviour that the rational
model leaves uninterpreted (no claim depends on it). -/
inductive Err where
  | unsafeChars : Err
  | parseError : Err
  | nameError : String → Err
  | typeError : Err
  | zeroDivision : Err
  | domainError : Err
  | tooManyNested : Err
  | noFuel : Err
  | notModelled : Err
deriving Repr, DecidableEq

/-- Abstract syntax of the modelled Python expression fragment. -/
inductive Expr where
  | intLit : Int → Expr
  | floatLit : Rat → Expr
  | boolLit : Bool → Expr
  | noneLit : Expr
  | name : String → Expr
  | attr : Expr → String → Expr
  | call : Expr → List Expr → Expr
  | neg : Expr → Expr
  | pos : Expr → Expr
  | add : Expr → Expr → Expr
  | sub : Expr → Expr → Expr
  | mul : Expr → Expr → Expr
  | div : Expr → Expr → Expr
  | mod : Expr → Expr → Expr
  | pow : Expr → Expr → Expr
deriving Repr

/-- The Python keywords (reserved words): a bare keyword is not a name lookup.
`True`, `False`, `None` compile to constants; the others are a SyntaxError as
a stand-alone expression atom in the modelled fragment. -/
def pyKeywords : List String :=
  ["False", "None", "True", "and", "as", "assert", "async", "await", "break",
   "class", "continue", "def", "del", "elif", "else", "except", "finally",
   "for", "from", "global", "if", "import", "in", "is", "lambda", "nonlocal",
   "not", "or", "pass", "raise", "return", "try", "while", "with", "yield"]

/-- Numeric value of a digit list read in base 10. -/
def natOfDigits (ds : List Char) : Nat :=
  ds.foldl (fun a c => a * 10 + (c.toNat - 48)) 0

/-- Value of a float literal with integer digits `ip` and fraction digits
`fp` (exact: a decimal literal denotes a rational; the rounding to the
nearest double is not modelled, see the header comment). -/
def ratOfDigits (ip fp : List Char) : Rat :=
  (natOfDigits (ip ++ fp) : Rat) / ((10 : Rat) ^ fp.length)

/-- A decimal integer literal with a leading zero and a nonzero digit is a
SyntaxError in Python 3 (e.g. `007`; `000` is legal). -/
def leadingZeroViolation (ds : List Char) : Bool :=
  match ds with
  | '0' :: rest => rest.any (fun c => c ≠ '0')
  | _ => false

/-- CPython's tokenizer bounds parenthesis nesting: `MAXLEVEL = 200` in
Parser/tokenizer (stable across CPython versions); opening a parenthesis at
nesting level 200 raises `SyntaxError: too many nested parentheses`. -/
def MAXLEVEL : Nat := 200

mutual

/-- `arith := term (('+' | '-') term)*` — Python's lowest-precedence
arithmetic level in the modelled fragment.  The second argument of every
parse function is the current parenthesis nesting level, maintained as
CPython's tokenizer does. -/
def parseArith : Nat → Nat → List Char → Except Err (Expr × List Char)
  | 0, _, _ => .error .noFuel
  | f + 1, lvl, cs =>
    match parseTerm f lvl cs with
    | .ok (e, r) => parseArithLoop f lvl e r
    | .error er => .error er
  termination_by structural f => f

def parseArithLoop : Nat → Nat → Expr → List Char → Except Err (Expr × List Char)
  | 0, _, _, _ => .error .noFuel
  | f + 1, lvl, acc, '+' :: cs =>
    match parseTerm f lvl cs with
    | .ok (e, r) => parseArithLoop f lvl (.add acc e) r
    | .error er => .error er
  | f + 1, lvl, acc, '-' :: cs =>
    match parseTerm f lvl cs with
    | .ok (e, r) => parseArithLoop f lvl (.sub acc e) r
    | .error er => .error er
  | _ + 1, _, acc, cs => .ok (acc, cs)
  termination_by structural f => f

/-- `term := factor (('*' | '/' | '%') factor)*`.  A `**` never reaches this
level: `parsePower` consumes it first. -/
def parseTerm : Nat → Nat → List Char → Except Err (Expr × List Char)
  | 0, _, _ => .error .noFuel
  | f + 1, lvl, cs =>
    match parseFactor f lvl cs with
    | .ok (e, r) => parseTermLoop f lvl e r
    | .error er => .error er
  termination_by structural f => f

def parseTermLoop : Nat → Nat → Expr → List Char → Except Err (Expr × List Char)
  | 0, _, _, _ => .error .noFuel
  | f + 1, lvl, acc, '*' :: cs =>
    match parseFactor f lvl cs with
    | .ok (e, r) => parseTermLoop f lvl (.mul acc e) r
    | .error er => .error er
  | f + 1, lvl, acc, '/' :: cs =>
    match parseFactor f lvl cs with
    | .ok (e, r) => parseTermLoop f lvl (.div acc e) r
    | .error er => .error er
  | f + 1, lvl, acc, '%' :: cs =>
    match parseFactor f lvl cs with
    | .ok (e, r) => parseTermLoop f lvl (.mod acc e) r
    | .error er => .error er
  | _ + 1, _, acc, cs => .ok (acc, cs)
  termination_by structural f => f

/-- `factor := ('+' | '-') factor | power` — Python's unary level. -/
def parseFactor : Nat → Nat → List Char → Except Err (Expr × List Char)
  | 0, _, _ => .error .noFuel
  | f + 1, lvl, '-' :: cs =>
    match parseFactor f lvl cs with
    | .ok (e, r) => .ok (.neg e, r)
    | .error er => .error er
  | f + 1, lvl, '+' :: cs =>
    match parseFactor f lvl cs with
    | .ok (e, r) => .ok (.pos e, r)
    | .error er => .error er
  | f + 1, lvl, cs => parsePower f lvl cs
  termination_by structural f => f

/-- `power := trailer ['**' factor]` — right-associative, binding tighter
than unary minus on its left, as in Python. -/
def parsePower : Nat → Nat → List Char → Except Err (Expr × List Char)
  | 0, _, _ => .error .noFuel
  | f + 1, lvl, cs =>
    match parseTrailerStart f lvl cs with
    | .ok (e, '*' :: '*' :: r) =>
      match parseFactor f lvl r with
      | .ok (e2, r2) => .ok (.pow e e2, r2)
      | .error er => .error er
    | .ok (e, r) => .ok (e, r)
    | .error er => .error er
  termination_by structural f => f

/-- `trailer := atom ('.' ident | '(' args ')')*` — attribute access and call
syntax, Python's trailer rules on the modelled fragment. -/
def parseTrailerStart : Nat → Nat → List Char → Except Err (Expr × List Char)
  | 0, _, _ => .error .noFuel
  | f + 1, lvl, cs =>
    match parseAtom f lvl cs with
    | .ok (e, r) => parseTrailers f lvl e r
    | .error er => .error er
  termination_by structural f => f

def parseTrailers : Nat → Nat → Expr → List Char → Except Err (Expr × List Char)
  | 0, _, _, _ => .error .noFuel
  | f + 1, lvl, e, '.' :: cs =>
    match cs with
    | c :: _ =>
      if c.isAlpha then
        parseTrailers f lvl (.attr e (String.mk (cs.takeWhile Char.isAlphanum)))
          (cs.dropWhile Char.isAlphanum)
      else .error .parseError
    | [] => .error .parseError
  | f + 1, lvl, e, '(' :: cs =>
    if MAXLEVEL ≤ lvl then .error .tooManyNested
    else
      match parseArgs f (lvl + 1) cs with
      | .ok (args, r) => parseTrailers f lvl (.call e args) r
      | .error er => .error er
  | _ + 1, _, e, cs => .ok (e, cs)
  termination_by structural f => f

/-- The argument list of a call, including the closing ')'. -/
def parseArgs : Nat → Nat → List Char → Except Err (List Expr × List Char)
  | 0, _, _ => .error .noFuel
  | _ + 1, _, ')' :: cs => .ok ([], cs)
  | f + 1, lvl, cs =>
    match parseArith f lvl cs with
    | .ok (e, r) =>
      match parseArgsRest f lvl r with
      | .ok (args, r2) => .ok (e :: args, r2)
      | .error er => .error er
    | .error er => .error er
  termination_by structural f => f

def parseArgsRest : Nat → Nat → List Char → Except Err (List Expr × List Char)
  | 0, _, _ => .error .noFuel
  | _ + 1, _, ',' :: ')' :: cs => .ok ([], cs)
  | f + 1, lvl, ',' :: cs =>
    match parseArith f lvl cs with
    | .ok (e, r) =>
      match parseArgsRest f lvl r with
      | .ok (args, r2) => .ok (e :: args, r2)
      | .error er => .error er
    | .error er => .error er
  | _ + 1, _, ')' :: cs => .ok ([], cs)
  | _ + 1, _, _ => .error .parseError
  termination_by structural f => f

/-- An atom: a parenthesised expression (entering a deeper tokenizer
nesting level, bounded by MAXLEVEL), a numeric literal, or an identifier
(keywords handled as in Python: True, False, None are constants, other
keywords cannot stand as an expression atom). -/
def parseAtom : Nat → Nat → List Char → Except Err (Expr × List Char)
  | 0, _, _ => .error .noFuel
  | f + 1, lvl, '(' :: cs =>
    if MAXLEVEL ≤ lvl then .error .tooManyNested
    else
      match parseArith f (lvl + 1) cs with
      | .ok (e, ')' :: r) => .ok (e, r)
      | .ok _ => .error .parseError
      | .error er => .error er
  | _ + 1, _, '.' :: cs =>
    match cs with
    | c :: _ =>
      if c.isDigit then
        .ok (.floatLit (ratOfDigits [] (cs.takeWhile Char.isDigit)),
          cs.dropWhile Char.isDigit)
      else .error .parseError
    | [] => .error .parseError
  | _ + 1, _, c :: cs =>
    if c.isDigit then
      let ip := (c :: cs).takeWhile Char.isDigit
      let r1 := (c :: cs).dropWhile Char.isDigit
      match r1 with
      | '.' :: r2 =>
        .ok (.floatLit (ratOfDigits ip (r2.takeWhile Char.isDigit)),
          r2.dropWhile Char.isDigit)
      | _ =>
        if leadingZeroViolation ip then .error .parseError
        else .ok (.intLit (natOfDigits ip), r1)
    else if c.isAlpha then
      let idChars := (c :: cs).takeWhile Char.isAlphanum
      let r1 := (c :: cs).dropWhile Char.isAlphanum
      let s := String.mk idChars
      if s = "True" then .ok (.boolLit true, r1)
      else if s = "False" then .ok (.boolLit false, r1)
      else if s = "None" then .ok (.noneLit, r1)
      else if pyKeywords.contains s then .error .parseError
      else .ok (.name s, r1)
    else .error .parseError
  | _ + 1, _, [] => .error .parseError

  termination_by structural f => f
end

/-- Parse a complete sanitized expression string, starting at nesting level
0 and requiring all input to be consumed (Python compiles the whole string
in eval mode).  The fuel `8 * (length + 1)` is sufficient because each of
the at most eight nested parse layers per position consumes input before
recursing. -/
def parseExpr (s : String) : Except Err Expr :=
  let cs := s.toList
  match parseArith (8 * (cs.length + 1)) 0 cs with
  | .ok (e, []) => .ok e
  | .ok (_, _ :: _) => .error .parseError
  | .error er => .error er

/-- The Python int value of an int or bool operand (bool is an int subclass:
True is 1, False is 0). -/
def intOf : Value → Option Int
  | .int n => Option.some n
  | .bool b => Option.some (if b then 1 else 0)
  | _ => Option.none

/-- The exact rational value of an int, bool or finite-float operand. -/
def ratOf : Value → Option Rat
  | .int n => Option.some (n : Rat)
  | .bool b => Option.some (if b then 1 else 0)
  | .float q => Option.some q
  | _ => Option.none

/-- Values whose arithmetic the rational model leaves uninterpreted
(math.inf, math.nan, and uninterpreted transcendental results). -/
def isSpecial : Value → Bool
  | .inf => true
  | .nan => true
  | .sym _ => true
  | _ => false

/-- Python truthiness (`if a and b` in the lcm lambda): zero numbers, False
and None are falsy; numbers, function objects are truthy.  The truthiness of
an uninterpreted double is unknown. -/
def pyTruthy : Value → Option Bool
  | .int n => Option.some (n != 0)
  | .float q => Option.some (q != 0)
  | .bool b => Option.some b
  | .none => Option.some false
  | .inf => Option.some true
  | .nan => Option.some true
  | .builtin _ => Option.some true
  | .sym _ => Option.none

/-- A binary arithmetic operator with Python's numeric promotion: int op int
is an int, any float operand promotes to float. -/
def binNum (fi : Int → Int → Int) (fr : Rat → Rat → Rat) (a b : Value) :
    Except Err Value :=
  match intOf a, intOf b with
  | Option.some x, Option.some y => .ok (.int (fi x y))
  | _, _ =>
    match ratOf a, ratOf b with
    | Option.some x, Option.some y => .ok (.float (fr x y))
    | _, _ =>
      if isSpecial a || isSpecial b then .error .notModelled
      else .error .typeError

def addV (a b : Value) : Except Err Value := binNum (· + ·) (· + ·) a b

def subV (a b : Value) : Except Err Value := binNum (· - ·) (· - ·) a b

def mulV (a b : Value) : Except Err Value := binNum (· * ·) (· * ·) a b

/-- Python true division `/`: always a float, ZeroDivisionError on a zero
divisor (the rounding of the quotient to a double is not modelled). -/
def divV (a b : Value) : Except Err Value :=
  match ratOf a, ratOf b with
  | Option.some x, Option.some y =>
    if y = 0 then .error .zeroDivision else .ok (.float (x / y))
  | _, _ =>
    if isSpecial a || isSpecial b then .error .notModelled
    else .error .typeError

/-- Python `%`: floor modulus, the result takes the sign of the divisor;
ZeroDivisionError on a zero divisor. -/
def modV (a b : Value) : Except Err Value :=
  match intOf a, intOf b with
  | Option.some x, Option.some y =>
    if y = 0 then .error .zeroDivision else .ok (.int (Int.fmod x y))
  | _, _ =>
    match ratOf a, ratOf b with
    | Option.some x, Option.some y =>
      if y = 0 then .error .zeroDivision
      else .ok (.float (x - y * (⌊x / y⌋ : Rat)))
    | _, _ =>
      if isSpecial a || isSpecial b then .error .notModelled
      else .error .typeError

/-- Python `**` on the modelled operands: int ** nonnegative int is an int,
a negative exponent gives a float (0 to a negative power is a
ZeroDivisionError); a non-integer exponent is double (or complex) arithmetic
outside the rational model. -/
def powV (a b : Value) : Except Err Value :=
  match intOf a, intOf b with
  | Option.some x, Option.some y =>
    if 0 ≤ y then .ok (.int (x ^ y.toNat))
    else if x = 0 then .error .zeroDivision
    else .ok (.float ((1 : Rat) / (x : Rat) ^ (-y).toNat))
  | _, _ =>
    match ratOf a, intOf b with
    | Option.some qa, Option.some y =>
      if 0 ≤ y then .ok (.float (qa ^ y.toNat))
      else if qa = 0 then .error .zeroDivision
      else .ok (.float ((1 : Rat) / qa ^ (-y).toNat))
    | _, _ =>
      match ratOf a, ratOf b with
      | Option.some _, Option.some _ => .error .notModelled
      | _, _ =>
        if isSpecial a || isSpecial b then .error .notModelled
        else .error .typeError

/-- Python unary minus. -/
def negV (v : Value) : Except Err Value :=
  match v with
  | .int n => .ok (.int (-n))
  | .bool b => .ok (.int (if b then -1 else 0))
  | .float q => .ok (.float (-q))
  | _ => if isSpecial v then .error .notModelled else .error .typeError

/-- Python unary plus (numeric identity; bools promote to int). -/
def posV (v : Value) : Except Err Value :=
  match v with
  | .int n => .ok (.int n)
  | .bool b => .ok (.int (if b then 1 else 0))
  | .float q => .ok (.float q)
  | _ => if isSpecial v then .error .notModelled else .error .typeError

/-- Attribute access on a value, as Python resolves it on the numeric
attributes the modelled fragment can reach: `real`, `imag`, `numerator`,
`denominator` of ints and `real`, `imag` of floats are numbers.  Every other
attribute (bound methods such as `hex`, AttributeError cases, attributes of
the remaining values) is left outside the model. -/
def attrV (v : Value) (a : String) : Except Err Value :=
  match v, a with
  | .int n, "real" => .ok (.int n)
  | .int n, "numerator" => .ok (.int n)
  | .int _, "denominator" => .ok (.int 1)
  | .int _, "imag" => .ok (.int 0)
  | .float q, "real" => .ok (.float q)
  | .float _, "imag" => .ok (.float 0)
  | _, _ => .error .notModelled

/-- Python `round` on a float: round half to even, returning an int. -/
def pyRound (q : Rat) : Int :=
  let fl := ⌊q⌋
  let frac := q - (fl : Rat)
  if frac < 1 / 2 then fl
  else if 1 / 2 < frac then fl + 1
  else if fl % 2 = 0 then fl else fl + 1

/-- Truncation of a rational toward zero (`math.trunc`). -/
def ratTrunc (q : Rat) : Int := q.num / (q.den : Int)

/-- The domain checks of the transcendental math builtins (the arguments on
which CPython raises `ValueError: math domain error`). -/
def domainViolation (b : String) (q : Rat) : Bool :=
  match b with
  | "sqrt" => decide (q < 0)
  | "log" => decide (q ≤ 0)
  | "log10" => decide (q ≤ 0)
  | "log2" => decide (q ≤ 0)
  | "asin" => decide (q < -1) || decide (1 < q)
  | "acos" => decide (q < -1) || decide (1 < q)
  | "acosh" => decide (q < 1)
  | "atanh" => decide (q ≤ -1) || decide (1 ≤ q)
  | _ => false

/-- A one-argument transcendental math builtin: after its domain check its
double result is the uninterpreted value `sym b`. -/
def transApply (b : String) (v : Value) : Except Err Value :=
  match ratOf v with
  | Option.some q =>
    if domainViolation b q then .error .domainError else .ok (.sym b)
  | Option.none =>
    if isSpecial v then .error .notModelled else .error .typeError

/-- Python `min`/`max` over two or more numeric arguments; `better x y` means
x is preferred to y, ties keep the earlier argument, and the returned value
is one of the arguments. -/
def pyExtreme (better : Rat → Rat → Bool) : Value → List Value → Except Err Value
  | v, [] => .ok v
  | v, w :: ws =>
    match ratOf v, ratOf w with
    | Option.some a, Option.some b =>
      pyExtreme better (if better b a then w else v) ws
    | _, _ =>
      if isSpecial v || isSpecial w then .error .notModelled
      else .error .typeError

/-- The int values of a list of int-like arguments (for `math.gcd`, which
rejects floats with a TypeError). -/
def allInts : List Value → Option (List Int)
  | [] => Option.some []
  | v :: vs =>
    match intOf v with
    | Option.some n => (allInts vs).map (fun ns => n :: ns)
    | Option.none => Option.none

/-- Embeds the lambda stored at key "lcm":
`lambda a, b: abs(a*b) // math.gcd(a, b) if a and b else 0`.
The truthiness condition is evaluated first; when both arguments are truthy
the result is the integer floor division of `abs(a*b)` by `math.gcd(a, b)`
(gcd raises a TypeError on floats); when either argument is falsy the result
is the int 0 — no division is attempted. -/
def lcmLambda (x y : Value) : Except Err Value :=
  match pyTruthy x, pyTruthy y with
  | Option.some tx, Option.some ty =>
    if tx && ty then
      match intOf x, intOf y with
      | Option.some a, Option.some c =>
        .ok (.int (((a * c).natAbs / Int.gcd a c : Nat) : Int))
      | _, _ => .error .typeError
    else .ok (.int 0)
  | _, _ => .error .notModelled

/-- Application of one function of the safe_dict table, embedding the Python
callable stored there.  In particular `lcm` embeds the lambda
`lambda a, b: abs(a*b) // math.gcd(a, b) if a and b else 0` of the source:
the truthiness test first, the integer floor division of `abs(a*b)` by
`math.gcd(a, b)` when both arguments are truthy (gcd raises a TypeError on
floats), and `0` when either argument is falsy. -/
def applyBuiltin (b : String) (args : List Value) : Except Err Value :=
  match b, args with
  | "abs", [v] =>
    match v with
    | .int n => .ok (.int n.natAbs)
    | .bool bb => .ok (.int (if bb then 1 else 0))
    | .float q => .ok (.float |q|)
    | _ => if isSpecial v then .error .notModelled else .error .typeError
  | "round", [v] =>
    match v with
    | .int n => .ok (.int n)
    | .bool bb => .ok (.int (if bb then 1 else 0))
    | .float q => .ok (.int (pyRound q))
    | _ => if isSpecial v then .error .notModelled else .error .typeError
  | "round", [_, _] => .error .notModelled
  | "min", v :: w :: vs => pyExtreme (fun x y => decide (x < y)) v (w :: vs)
  | "max", v :: w :: vs => pyExtreme (fun x y => decide (y < x)) v (w :: vs)
  | "pow", [x, y] => powV x y
  | "pow", [_, _, _] => .error .notModelled
  | "sqrt", [v] => transApply "sqrt" v
  | "exp", [v] => transApply "exp" v
  | "log", [v] => transApply "log" v
  | "log", [v, bs] =>
    match ratOf v, ratOf bs with
    | Option.some x, Option.some y =>
      if decide (x ≤ 0) || decide (y ≤ 0) then .error .domainError
      else if y = 1 then .error .zeroDivision
      else .ok (.sym "log")
    | _, _ =>
      if isSpecial v || isSpecial bs then .error .notModelled
      else .error .typeError
  | "log10", [v] => transApply "log10" v
  | "log2", [v] => transApply "log2" v
  | "factorial", [v] =>
    match v with
    | .int n =>
      if n < 0 then .error .domainError else .ok (.int (Nat.factorial n.toNat))
    | .bool _ => .ok (.int 1)
    | _ => if isSpecial v then .error .notModelled else .error .typeError
  | "sin", [v] => transApply "sin" v
  | "cos", [v] => transApply "cos" v
  | "tan", [v] => transApply "tan" v
  | "asin", [v] => transApply "asin" v
  | "acos", [v] => transApply "acos" v
  | "atan", [v] => transApply "atan" v
  | "atan2", [v, w] =>
    match ratOf v, ratOf w with
    | Option.some _, Option.some _ => .ok (.sym "atan2")
    | _, _ =>
      if isSpecial v || isSpecial w then .error .notModelled
      else .error .typeError
  | "sinh", [v] => transApply "sinh" v
  | "cosh", [v] => transApply "cosh" v
  | "tanh", [v] => transApply "tanh" v
  | "asinh", [v] => transApply "asinh" v
  | "acosh", [v] => transApply "acosh" v
  | "atanh", [v] => transApply "atanh" v
  | "degrees", [v] => transApply "degrees" v
  | "radians", [v] => transApply "radians" v
  | "ceil", [v] =>
    match v with
    | .int n => .ok (.int n)
    | .bool bb => .ok (.int (if bb then 1 else 0))
    | .float q => .ok (.int ⌈q⌉)
    | _ => if isSpecial v then .error .notModelled else .error .typeError
  | "floor", [v] =>
    match v with
    | .int n => .ok (.int n)
    | .bool bb => .ok (.int (if bb then 1 else 0))
    | .float q => .ok (.int ⌊q⌋)
    | _ => if isSpecial v then .error .notModelled else .error .typeError
  | "trunc", [v] =>
    match v with
    | .int n => .ok (.int n)
    | .bool bb => .ok (.int (if bb then 1 else 0))
    | .float q => .ok (.int (ratTrunc q))
    | _ => if isSpecial v then .error .notModelled else .error .typeError
  | "gcd", vs =>
    match allInts vs with
    | Option.some ns =>
      .ok (.int ((ns.foldl (fun a n => Nat.gcd a n.natAbs) 0 : Nat) : Int))
    | Option.none => .error .typeError
  | "lcm", [x, y] => lcmLambda x y
  | _, _ => .error .typeError

mutual

/-- Tree-walking evaluation of a parsed expression against a name-resolution
scope, embedding what CPython's eval does on the modelled fragment: the only
resolution of a bare name is the lookup `scope n` (the merged dict passed as
locals; the globals dict `\x7b'__builtins__': None\x7d` offers no further
names), a missing name is a NameError, operators and calls evaluate
arguments left to right and propagate the first exception. -/
def evalAst : Nat → (String → Option Value) → Expr → Except Err Value
  | 0, _, _ => .error .noFuel
  | f + 1, scope, ex =>
    match ex with
    | .intLit n => .ok (.int n)
    | .floatLit q => .ok (.float q)
    | .boolLit b => .ok (.bool b)
    | .noneLit => .ok .none
    | .name n =>
      match scope n with
      | Option.some v => .ok v
      | Option.none => .error (.nameError n)
    | .attr a fld => (evalAst f scope a).bind fun v => attrV v fld
    | .call fn args =>
      match evalAst f scope fn with
      | .ok (.builtin bn) =>
        match evalArgs f scope args with
        | .ok vs => applyBuiltin bn vs
        | .error er => .error er
      | .ok _ => .error .typeError
      | .error er => .error er
    | .neg a => (evalAst f scope a).bind fun v => negV v
    | .pos a => (evalAst f scope a).bind fun v => posV v
    | .add a c =>
      (evalAst f scope a).bind fun va =>
        (evalAst f scope c).bind fun vc => addV va vc
    | .sub a c =>
      (evalAst f scope a).bind fun va =>
        (evalAst f scope c).bind fun vc => subV va vc
    | .mul a c =>
      (evalAst f scope a).bind fun va =>
        (evalAst f scope c).bind fun vc => mulV va vc
    | .div a c =>
      (evalAst f scope a).bind fun va =>
        (evalAst f scope c).bind fun vc => divV va vc
    | .mod a c =>
      (evalAst f scope a).bind fun va =>
        (evalAst f scope c).bind fun vc => modV va vc
    | .pow a c =>
      (evalAst f scope a).bind fun va =>
        (evalAst f scope c).bind fun vc => powV va vc

def evalArgs : Nat → (String → Option Value) → List Expr → Except Err (List Value)
  | 0, _, _ => .error .noFuel
  | _ + 1, _, [] => .ok []
  | f + 1, scope, a :: as =>
    match evalAst f scope a with
    | .ok v =>
      match evalArgs f scope as with
      | .ok vs => .ok (v :: vs)
      | .error er => .error er
    | .error er => .error er

end

/-- The exact rational value of the IEEE-754 double `math.pi`. -/
def piFloat : Rat := 884279719003555 / 281474976710656

/-- The exact rational value of the IEEE-754 double `math.e`. -/
def eFloat : Rat := 6121026514868073 / 2251799813685248

/-- The exact rational value of the IEEE-754 double `math.tau`. -/
def tauFloat : Rat := 884279719003555 / 140737488355328

/-- The `safe_dict` table built in SafeEvaluator.__init__, in source order:
each function entry holds the corresponding callable, the constants hold
their float values, and `__builtins__` is mapped to None as in the source. -/
def safe_dict : List (String × Value) :=
  [("abs", .builtin "abs"), ("round", .builtin "round"),
   ("min", .builtin "min"), ("max", .builtin "max"), ("pow", .builtin "pow"),
   ("sqrt", .builtin "sqrt"), ("exp", .builtin "exp"), ("log", .builtin "log"),
   ("log10", .builtin "log10"), ("log2", .builtin "log2"),
   ("factorial", .builtin "factorial"),
   ("sin", .builtin "sin"), ("cos", .builtin "cos"), ("tan", .builtin "tan"),
   ("asin", .builtin "asin"), ("acos", .builtin "acos"),
   ("atan", .builtin "atan"), ("atan2", .builtin "atan2"),
   ("sinh", .builtin "sinh"), ("cosh", .builtin "cosh"),
   ("tanh", .builtin "tanh"), ("asinh", .builtin "asinh"),
   ("acosh", .builtin "acosh"), ("atanh", .builtin "atanh"),
   ("degrees", .builtin "degrees"), ("radians", .builtin "radians"),
   ("pi", .float piFloat), ("e", .float eFloat), ("tau", .float tauFloat),
   ("inf", .inf), ("nan", .nan),
   ("ceil", .builtin "ceil"), ("floor", .builtin "floor"),
   ("trunc", .builtin "trunc"), ("gcd", .builtin "gcd"),
   ("lcm", .builtin "lcm"),
   ("__builtins__", .none)]

/-- The caller-owned variable table (`self.variables` in the UI layer),
a string-to-value dictionary modelled as an association list with
first-match lookup. -/
abbrev VarTable := List (String × Value)

/-- Python `d.copy()`: a fresh dict with the same entries. -/
def dictCopy (d : VarTable) : VarTable := d

/-- Python `target.update(source)`: the target becomes source-over-target
(source entries shadow target entries of the same key); the source dict is
only read and comes back unchanged. -/
def dictUpdate (target source : VarTable) : VarTable × VarTable :=
  (source ++ target, source)

/-- The merged name-resolution scope of one evaluation:
`eval_dict = self.safe_dict.copy(); eval_dict.update(variables)`.
Caller variables shadow the built-in entries of the same name. -/
def mergedScope (vars : VarTable) : String → Option Value :=
  fun n => ((dictUpdate (dictCopy safe_dict) vars).1).lookup n

/-- Embeds `SafeEvaluator.evaluate`, threading the caller's variable table
through each step to record where it is read: sanitize, the safety check
(raising before anything else on an unsafe string), the merged-scope
construction (which writes only the fresh copy), then eval on the sanitized
string.  Returns the result together with the table as the caller sees it
afterwards. -/
def evaluateWithTable (expr : String) (vtable : VarTable) :
    Except Err Value × VarTable :=
  let e := sanitize_input expr
  if is_safe_expression e = false then (.error .unsafeChars, vtable)
  else
    let (evalDict, vtable) := dictUpdate (dictCopy safe_dict) vtable
    match parseExpr e with
    | .error er => (.error er, vtable)
    | .ok ast =>
      (evalAst (8 * (e.toList.length + 1)) (fun n => evalDict.lookup n) ast,
        vtable)

/-- The value (or error) of `SafeEvaluator.evaluate(expr, variables)`. -/
def evaluate (expr : String) (vtable : VarTable) : Except Err Value :=
  (evaluateWithTable expr vtable).1

/-- The observable outcome of one FormulaCalculator.calculate call. -/
inductive CalcOutcome where
  | emptyInput : CalcOutcome
  | invalidVarName : CalcOutcome
  | assigned : String → Value → CalcOutcome
  | value : Value → CalcOutcome
  | evalError : Err → CalcOutcome
deriving Repr, DecidableEq

/-- Python `self.variables[var_name] = value`: replace the entry in place,
or append a new one. -/
def setVar (vars : VarTable) (n : String) (v : Value) : VarTable :=
  if vars.any (fun p => p.1 = n) then
    vars.map (fun p => if p.1 = n then (n, v) else p)
  else vars ++ [(n, v)]

/-- Embeds `FormulaCalculator.calculate`: strip the raw input, reject the
empty string, and if the text contains '=' anywhere take the assignment
branch — split at the first '=', strip both parts, require the left part to
be an identifier (raising "无效的变量名" otherwise), evaluate the right part
and store the binding.  Otherwise evaluate the whole text.  There is no
special case for '==': any input containing '=' goes to the assignment
branch. -/
def calculate (raw : String) (vars : VarTable) : CalcOutcome × VarTable :=
  let expr := pyStrip raw
  if expr.toList.isEmpty then (.emptyInput, vars)
  else
    match breakAtEq expr.toList with
    | Option.some (preEq, postEq) =>
      let varName := pyStrip (String.mk preEq)
      let varExpr := pyStrip (String.mk postEq)
      if pyIsIdentifier varName then
        match evaluate varExpr vars with
        | .ok v => (.assigned varName v, setVar vars varName v)
        | .error er => (.evalError er, vars)
      else (.invalidVarName, vars)
    | Option.none =>
      match evaluate expr vars with
      | .ok v => (.value v, vars)
      | .error er => (.evalError er, vars)

theorem toList_mk (l : List Char) : (String.mk l).toList = l := rfl

theorem takeWhile_all_append (p : Char → Bool) (t r : List Char) (x : Char)
    (ht : ∀ c ∈ t, p c = true) (hx : p x = false) :
    (t ++ x :: r).takeWhile p = t := by
  induction t with
  | nil => simp [List.takeWhile_cons, hx]
  | cons a as ih =>
    have ha : p a = true := ht a (by simp)
    simp only [List.cons_append, List.takeWhile_cons, ha, if_true]
    rw [ih (fun c hc => ht c (by simp [hc]))]

/-- Characterization of the validator: `re.match(r'^[C]+\x24', s)` succeeds
exactly on a nonempty all-class string, or an all-class nonempty string
followed by one trailing newline (the Python `\x24` quirk). -/
theorem is_safe_iff (s : String) :
    is_safe_expression s = true ↔
      ((s.toList ≠ [] ∧ ∀ c ∈ s.toList, isSafeChar c = true) ∨
       (∃ t, s.toList = t ++ ['\n'] ∧ t ≠ [] ∧ ∀ c ∈ t, isSafeChar c = true)) := by
  unfold is_safe_expression
  simp only [Bool.and_eq_true, Bool.or_eq_true, decide_eq_true_eq]
  constructor
  · rintro ⟨hpos, hlen | ⟨hlast, hlen⟩⟩
    · left
      have heq : s.toList.takeWhile isSafeChar = s.toList :=
        ( List.takeWhile_prefix isSafeChar).eq_of_length hlen
      refine ⟨?_, List.takeWhile_eq_self_iff.mp heq⟩
      apply List.length_pos.mp
      omega
    · right
      have hlast' : '\n' ∈ s.toList.getLast? := by
        rw [hlast]; rfl
      have hsplit := List.dropLast_append_getLast? '\n' hlast'
      have hd : s.toList.dropLast.length = s.toList.length - 1 :=
        List.length_dropLast s.toList
      refine ⟨s.toList.dropLast, hsplit.symm, ?_, ?_⟩
      · apply List.length_pos.mp
        rw [hd]
        omega
      · have h1 : s.toList.takeWhile isSafeChar =
            s.toList.take (s.toList.length - 1) := by
          have := List.prefix_iff_eq_take.mp ( List.takeWhile_prefix
            (l := s.toList) isSafeChar)
          rw [hlen] at this
          exact this
        have h2 : s.toList.dropLast = s.toList.take (s.toList.length - 1) := by
          have hpre : s.toList.dropLast <+: s.toList := ⟨['\n'], hsplit⟩
          have := List.prefix_iff_eq_take.mp hpre
          rw [hd] at this
          exact this
        intro c hc
        apply List.mem_takeWhile_imp (p := isSafeChar) (l := s.toList)
        rw [h1, ← h2]
        exact hc
  · rintro (⟨hne, hall⟩ | ⟨t, heq, hne, hall⟩)
    · have heq : s.toList.takeWhile isSafeChar = s.toList :=
        List.takeWhile_eq_self_iff.mpr hall
      rw [heq]
      exact ⟨List.length_pos.mpr hne, Or.inl rfl⟩
    · have htw : s.toList.takeWhile isSafeChar = t := by
        rw [heq]
        exact takeWhile_all_append isSafeChar t [] '\n' hall (by decide)
      have hlen : s.toList.length = t.length + 1 := by rw [heq]; simp
      have hlast : s.toList.getLast? = some '\n' := by
        rw [heq]; exact List.getLast?_concat t
      rw [htw, hlast, hlen]
      refine ⟨List.length_pos.mpr hne, Or.inr ⟨rfl, by omega⟩⟩

/-- A character of a string the validator accepts is in the allow-list or is
the trailing newline. -/
theorem safe_or_newline_of_is_safe {s : String} {c : Char}
    (h : is_safe_expression s = true) (hc : c ∈ s.toList) :
    isSafeChar c = true ∨ c = '\n' := by
  rcases (is_safe_iff s).mp h with ⟨_, hall⟩ | ⟨t, heq, _, hall⟩
  · exact Or.inl (hall c hc)
  · rw [heq] at hc
    rcases List.mem_append.mp hc with h1 | h2
    · exact Or.inl (hall c h1)
    · simp at h2
      exact Or.inr h2

theorem takeWhile_append_filter_dropWhile (p : Char → Bool) (l : List Char) :
    l.takeWhile p ++ (l.dropWhile p).filter p = l.filter p := by
  induction l with
  | nil => rfl
  | cons a as ih =>
    by_cases h : p a = true
    · simp only [List.takeWhile_cons, List.dropWhile_cons, List.filter_cons, h,
        if_true, List.cons_append]
      rw [ih]
    · have h' : p a = false := by simpa using h
      simp [List.takeWhile_cons, List.dropWhile_cons, List.filter_cons, h']

theorem pyJoin_pySplitAux :
    ∀ (f : Nat) (l : List Char), l.length < f →
      pyJoin (pySplitAux f l) = l.filter (fun c => !pyIsSpace c) := by
  intro f
  induction f with
  | zero => intro l h; omega
  | succ f ih =>
    intro l h
    match l with
    | [] => rfl
    | c :: cs =>
      by_cases hc : pyIsSpace c = true
      · simp only [pySplitAux, hc, if_true]
        rw [ih cs (by simp at h; omega)]
        simp [List.filter_cons, hc]
      · have hc' : pyIsSpace c = false := by simpa using hc
        simp only [pySplitAux, hc', Bool.false_eq_true, if_false, pyJoin,
          List.foldr_cons]
        have hdrop : (cs.dropWhile (fun x => !pyIsSpace x)).length < f := by
          have := (List.dropWhile_sublist
            (l := cs) (fun x => !pyIsSpace x)).length_le
          simp at h
          omega
        have := ih (cs.dropWhile (fun x => !pyIsSpace x)) hdrop
        simp only [pyJoin] at this
        rw [this, List.cons_append, takeWhile_append_filter_dropWhile]
        simp [List.filter_cons, hc']

/-- `sanitize_input` computes the single-pass description of the spec:
drop every whitespace character, map the two fullwidth parentheses, change
nothing else. -/
theorem sanitize_input_eq_spec (s : String) : sanitize_input s = sanitizeSpec s := by
  simp only [sanitize_input, sanitizeSpec]
  rw [pyJoin_pySplitAux (s.toList.length + 1) s.toList (by omega), List.map_map]
  have hfun : ((fun c => if c = '）' then ')' else c) ∘
      (fun c => if c = '（' then '(' else c)) =
      (fun c => if c = '（' then '(' else if c = '）' then ')' else c) := by
    funext c
    by_cases h1 : c = '（'
    · subst h1; rfl
    · by_cases h2 : c = '）'
      · subst h2; rfl
      · simp [h1, h2]
  rw [hfun]

/-- The sanitized form of any input contains no newline: a newline is
whitespace, so it is removed, and the parenthesis replacements never produce
one. -/
theorem sanitize_no_newline (s : String) : '\n' ∉ (sanitize_input s).toList := by
  rw [sanitize_input_eq_spec]
  simp only [sanitizeSpec, toList_mk]
  intro h
  rcases List.mem_map.mp h with ⟨x, hx, hgx⟩
  rcases List.mem_filter.mp hx with ⟨_, hxs⟩
  by_cases h1 : x = '（'
  · simp [h1] at hgx
  · by_cases h2 : x = '）'
    · simp [h1, h2] at hgx
    · simp [h1, h2] at hgx
      subst hgx
      simp [pyIsSpace] at hxs

/-- A sanitized string holding any character outside the allow-list is
rejected by the validator (the trailing-newline quirk cannot save it, since
sanitized strings contain no newline). -/
theorem unsafe_sanitized_rejected {s : String} {c : Char}
    (hc : c ∈ (sanitize_input s).toList) (hbad : isSafeChar c = false) :
    is_safe_expression (sanitize_input s) = false := by
  rcases h : is_safe_expression (sanitize_input s) with _ | _
  · rfl
  · rcases safe_or_newline_of_is_safe h hc with hgood | hnl
    · rw [hgood] at hbad
      exact absurd hbad (by simp)
    · subst hnl
      exact absurd hc (sanitize_no_newline s)

set_option maxHeartbeats 2000000 in
/-- C4 (counterexample): the claim states that the validator returns false
for every string containing a character outside the allow-list, such as a
trailing newline; but Python's `\x24` anchor also matches just before a
trailing newline, so `is_safe_expression "2+3\n"` is true even though the
newline is not an allow-list character. -/
theorem c4_counterexample :
    is_safe_expression "2+3\n" = true ∧ isSafeChar '\n' = false :=
  ⟨rfl, rfl⟩

/-- C4 (amended): the validator returns true exactly on the nonempty strings
composed entirely of allow-list characters, or such a string followed by one
trailing newline (Python `re.match` lets `\x24` match before a final
newline); in particular it returns false on the empty string and on any
string with an outside character anywhere else. -/
theorem c4_validator_characterization (s : String) :
    is_safe_expression s = true ↔
      ((s.toList ≠ [] ∧ ∀ c ∈ s.toList, isSafeChar c = true) ∨
       (∃ t, s.toList = t ++ ['\n'] ∧ t ≠ [] ∧ ∀ c ∈ t, isSafeChar c = true)) :=
  is_safe_iff s

/-- C4 witness: the characterization applied to a concrete accepted string. -/
theorem c4_witness : is_safe_expression "ab" = true :=
  (c4_validator_characterization "ab").mpr (Or.inl ⟨by decide, by decide⟩)

/-- C8: the sanitizer agrees with the spec description on every input — it
removes every whitespace character anywhere in the string, maps （ to ( and
） to ), and performs no other transformation; it is a total pure function
(a Lean function), so it never fails. -/
theorem c8_sanitizer_spec (raw : String) : sanitize_input raw = sanitizeSpec raw :=
  sanitize_input_eq_spec raw

/-- C8 witness: the sanitizer on a string with inner spaces and fullwidth
parentheses. -/
theorem c8_witness : sanitize_input " 2 +（3 ）" = "2+(3)" :=
  (c8_sanitizer_spec " 2 +（3 ）").trans rfl

/-- C2 (counterexample): the claim quantifies over every input string with a
character outside the allow-list; a space is outside the allow-list, yet
`evaluate "2 + 3"` returns 5 — because sanitization removes whitespace
before the validation check, no ValidationError occurs. -/
theorem c2_counterexample :
    isSafeChar ' ' = false ∧ evaluate "2 + 3" [] = .ok (.int 5) :=
  ⟨rfl, rfl⟩

/-- C2 (amended): for every input string whose *sanitized* form contains a
character outside the allow-list, `evaluate` fails with the unsafe-character
ValidationError, independently of the variable table, before the string
reaches the parser or evaluator (the result is the validation error and the
table is untouched). -/
theorem c2_validation_before_evaluation (s : String) (vars : VarTable) (c : Char)
    (hc : c ∈ (sanitize_input s).toList) (hbad : isSafeChar c = false) :
    evaluateWithTable s vars = (.error .unsafeChars, vars) := by
  have hfalse := unsafe_sanitized_rejected hc hbad
  simp [evaluateWithTable, hfalse]

set_option maxHeartbeats 2000000 in
/-- C2 witness: a bracket survives sanitization and is rejected. -/
theorem c2_witness : evaluateWithTable "2+[3]" [] = (.error .unsafeChars, []) :=
  c2_validation_before_evaluation "2+[3]" [] '[' (by decide) (by decide)

/-- C6: one `evaluate` call returns the caller's variable table unchanged,
whether the result is a value or an error: the merge step writes only the
fresh copy of safe_dict and reads the caller's table. -/
theorem c6_variable_table_unchanged (expr : String) (vars : VarTable) :
    (evaluateWithTable expr vars).2 = vars := by
  unfold evaluateWithTable dictUpdate dictCopy
  by_cases h : is_safe_expression (sanitize_input expr) = false
  · simp [h]
  · simp only [h, if_false]
    cases parseExpr (sanitize_input expr) <;> simp

/-- C6 witness: the table is returned unchanged both on an error and on a
success. -/
theorem c6_witness :
    (evaluateWithTable "qq" [("x", Value.int 1)]).2 = [("x", Value.int 1)] ∧
    (evaluateWithTable "2+3" [("x", Value.int 1)]).2 = [("x", Value.int 1)] :=
  ⟨c6_variable_table_unchanged "qq" [("x", Value.int 1)],
   c6_variable_table_unchanged "2+3" [("x", Value.int 1)]⟩

theorem lookup_append_of_some {l₁ l₂ : VarTable} {n : String} {v : Value}
    (h : l₁.lookup n = Option.some v) : (l₁ ++ l₂).lookup n = Option.some v := by
  induction l₁ with
  | nil => simp [List.lookup] at h
  | cons p ps ih =>
    rcases p with ⟨k, w⟩
    simp only [List.cons_append, List.lookup]
    simp only [List.lookup] at h
    rcases hk : (n == k) with _ | _
    · rw [hk] at h
      exact ih h
    · rw [hk] at h
      exact h

set_option maxHeartbeats 2000000 in
/-- C5: entries of the caller-supplied variable table shadow the built-in
entries of the same name in the merged scope (`eval_dict.update(variables)`
overrides the copied safe_dict), and in particular `evaluate("e", e=10)`
returns 10 while without the variable `e` resolves to the built-in constant
e = 2.718281828459045 (the exact double). -/
theorem c5_variable_shadowing :
    (∀ (vars : VarTable) (n : String) (v : Value),
        vars.lookup n = Option.some v → mergedScope vars n = Option.some v) ∧
    evaluate "e" [("e", Value.int 10)] = .ok (.int 10) ∧
    evaluate "e" [] = .ok (.float eFloat) := by
  refine ⟨?_, rfl, rfl⟩
  intro vars n v h
  unfold mergedScope dictUpdate dictCopy
  exact lookup_append_of_some h

set_option maxHeartbeats 2000000 in
/-- C5 witness: a caller variable named like a built-in wins the lookup. -/
theorem c5_witness : mergedScope [("pi", Value.int 3)] "pi" = Option.some (Value.int 3) :=
  c5_variable_shadowing.1 [("pi", Value.int 3)] "pi" (Value.int 3) rfl

set_option maxHeartbeats 2000000 in
/-- C7: the lcm entry of the function table computes
`abs(a*b) // gcd(a, b)` for two nonzero integers and 0 when either operand
is zero — the zero case returns 0 by the truthiness test, without ever
dividing by zero — and the two documented evaluations hold. -/
theorem c7_lcm_definition :
    (∀ a b : Int, a ≠ 0 → b ≠ 0 →
        applyBuiltin "lcm" [Value.int a, Value.int b] =
          .ok (.int (((a * b).natAbs / Int.gcd a b : Nat) : Int))) ∧
    (∀ a b : Int, a = 0 ∨ b = 0 →
        applyBuiltin "lcm" [Value.int a, Value.int b] = .ok (.int 0)) ∧
    evaluate "lcm(0,5)" [] = .ok (.int 0) ∧
    evaluate "lcm(4,6)" [] = .ok (.int 12) := by
  refine ⟨?_, ?_, rfl, rfl⟩
  · intro a b ha hb
    have hstep : applyBuiltin "lcm" [Value.int a, Value.int b] =
        lcmLambda (Value.int a) (Value.int b) := rfl
    rw [hstep]
    simp [lcmLambda, pyTruthy, intOf, ha, hb]
  · rintro a b (rfl | rfl)
    · have hstep : applyBuiltin "lcm" [Value.int 0, Value.int b] =
          lcmLambda (Value.int 0) (Value.int b) := rfl
      rw [hstep]
      simp [lcmLambda, pyTruthy, intOf]
    · have hstep : applyBuiltin "lcm" [Value.int a, Value.int 0] =
          lcmLambda (Value.int a) (Value.int 0) := rfl
      rw [hstep]
      simp [lcmLambda, pyTruthy, intOf]

set_option maxHeartbeats 2000000 in
/-- C7 witness: the two branches of the lcm definition at concrete inputs. -/
theorem c7_witness :
    applyBuiltin "lcm" [Value.int 4, Value.int 6] =
      .ok (.int (((4 * 6 : Int).natAbs / Int.gcd 4 6 : Nat) : Int)) ∧
    applyBuiltin "lcm" [Value.int 0, Value.int 5] = .ok (.int 0) :=
  ⟨c7_lcm_definition.1 4 6 (by decide) (by decide),
   c7_lcm_definition.2.1 0 5 (Or.inl rfl)⟩

set_option maxHeartbeats 2000000 in
/-- C3 (code behaviour at the failing input): `"x==5"` contains '=', so
calculate takes the assignment branch; the candidate name "x" *is* a valid
identifier, so the input is treated as the assignment of the expression
"=5" to x, whose evaluation fails with a syntax error — it is never routed
to the evaluator as a comparison, contradicting the spec's
`tryParseAssignment("x==5") = None` rule (and the program's own help text,
which documents `==` comparisons). -/
theorem c3_double_equals_taken_as_assignment :
    pyIsIdentifier "x" = true ∧
    calculate "x==5" [] = (.evalError .parseError, []) ∧
    evaluate "=5" [] = .error .parseError :=
  ⟨rfl, rfl, rfl⟩

set_option maxHeartbeats 2000000 in
/-- C1 (counterexample): the claim states there is no mechanism to reach
attributes from within an expression.  But `"e.real"` passes the validator,
parses to an attribute-access node — not a bare name — and evaluates to the
float e by executing attribute access on the looked-up value; `"e.real"`
itself is not a key of the merged scope, so the result was not produced by
scope lookup alone. -/
theorem c1_counterexample :
    is_safe_expression "e.real" = true ∧
    parseExpr "e.real" = .ok (.attr (.name "e") "real") ∧
    evaluate "e.real" [] = .ok (.float eFloat) ∧
    mergedScope [] "e.real" = Option.none :=
  ⟨rfl, rfl, rfl, rfl⟩

set_option maxHeartbeats 2000000 in
/-- C1 (amended): bare-name resolution during evaluation consults only the
merged FunctionTable-overridden-by-VariableTable scope — a name in the scope
evaluates to its entry, a name absent from it fails with a NameError, with no
fallback to an ambient global namespace or to builtins — and the validator
rejects every string containing a character outside the allow-list anywhere
but in a trailing newline (in particular every underscore, bracket or quote,
hence the `__dunder__` and import escape strings); attribute access on
values of the merged scope, however, is expressible within the allowed
characters (see the counterexample). -/
theorem c1_name_resolution_scope_only :
    (∀ (s : String) (c : Char), c ∈ s.toList → isSafeChar c = false →
        c ≠ '\n' → is_safe_expression s = false) ∧
    (∀ (vars : VarTable) (n : String) (f : Nat) (v : Value),
        mergedScope vars n = Option.some v →
        evalAst (f + 1) (mergedScope vars) (.name n) = .ok v) ∧
    (∀ (vars : VarTable) (n : String) (f : Nat),
        mergedScope vars n = Option.none →
        evalAst (f + 1) (mergedScope vars) (.name n) = .error (.nameError n)) ∧
    evaluate "qq" [] = .error (.nameError "qq") := by
  refine ⟨?_, ?_, ?_, rfl⟩
  · intro s c hc hbad hnl
    rcases h : is_safe_expression s with _ | _
    · rfl
    · rcases safe_or_newline_of_is_safe h hc with hgood | h2
      · rw [hgood] at hbad
        exact absurd hbad (by simp)
      · exact absurd h2 hnl
  · intro vars n f v h
    have hstep : evalAst (f + 1) (mergedScope vars) (.name n) =
        (match mergedScope vars n with
         | Option.some w => Except.ok w
         | Option.none => Except.error (Err.nameError n)) := rfl
    rw [hstep, h]
  · intro vars n f h
    have hstep : evalAst (f + 1) (mergedScope vars) (.name n) =
        (match mergedScope vars n with
         | Option.some w => Except.ok w
         | Option.none => Except.error (Err.nameError n)) := rfl
    rw [hstep, h]

set_option maxHeartbeats 2000000 in
/-- C1 witness: the underscore string is rejected; an unknown bare name
resolves to a NameError through the merged scope. -/
theorem c1_witness :
    is_safe_expression "a_b" = false ∧
    evalAst 1 (mergedScope []) (.name "zz") = .error (.nameError "zz") :=
  ⟨c1_name_resolution_scope_only.1 "a_b" '_' (by decide) (by decide) (by decide),
   c1_name_resolution_scope_only.2.2.1 [] "zz" 0 rfl⟩

theorem breakAtEq_none_iff {l : List Char} :
    breakAtEq l = Option.none ↔ '=' ∉ l := by
  induction l with
  | nil => simp [breakAtEq]
  | cons c cs ih =>
    by_cases hc : c = '='
    · subst hc
      simp [breakAtEq]
    · simp only [breakAtEq, hc, if_false]
      rcases h : breakAtEq cs with _ | ⟨a, b⟩
      · have hmem : '=' ∉ cs := ih.mp h
        simp only [List.mem_cons, not_or]
        constructor
        · intro _
          exact ⟨fun hh => hc hh.symm, hmem⟩
        · intro _
          trivial
      · have hmem : '=' ∈ cs := by
          by_contra hn
          rw [ih.mpr hn] at h
          cases h
        simp [List.mem_cons, hmem]

theorem mem_dropWhile_of_mem {p : Char → Bool} {c : Char} {l : List Char}
    (hc : c ∈ l) (hp : p c = false) : c ∈ l.dropWhile p := by
  induction l with
  | nil => cases hc
  | cons x xs ih =>
    rw [List.dropWhile_cons]
    by_cases hx : p x = true
    · simp only [hx, if_true]
      rcases List.mem_cons.mp hc with rfl | hmem
      · rw [hp] at hx
        cases hx
      · exact ih hmem
    · have hx' : p x = false := by simpa using hx
      simp only [hx', Bool.false_eq_true, if_false]
      exact hc

theorem mem_pyStrip {s : String} {c : Char} (hc : c ∈ s.toList)
    (hns : pyIsSpace c = false) : c ∈ (pyStrip s).toList := by
  unfold pyStrip
  rw [toList_mk, List.mem_reverse]
  apply mem_dropWhile_of_mem _ hns
  rw [List.mem_reverse]
  exact mem_dropWhile_of_mem hc hns

/-- C10: any input containing '=' anywhere is routed to the assignment
branch (the split at the first '=' succeeds: stripping cannot remove the
'='), and whenever the stripped text before the first '=' is not a valid
identifier — as for the comparison operators `<=`, `>=`, `!=` — calculate
fails with the invalid-variable-name error, leaving the table unchanged,
instead of evaluating the comparison. -/
theorem c10_equals_always_assignment :
    (∀ s : String, '=' ∈ s.toList →
        (breakAtEq (pyStrip s).toList).isSome = true) ∧
    (∀ (s : String) (vars : VarTable) (preEq postEq : List Char),
        breakAtEq (pyStrip s).toList = Option.some (preEq, postEq) →
        pyIsIdentifier (pyStrip (String.mk preEq)) = false →
        calculate s vars = (.invalidVarName, vars)) := by
  constructor
  · intro s hmem
    rcases h : breakAtEq (pyStrip s).toList with _ | p
    · exact absurd (mem_pyStrip hmem (by decide)) (breakAtEq_none_iff.mp h)
    · rfl
  · intro s vars preEq postEq hbrk hid
    have hne : (pyStrip s).toList.isEmpty = false := by
      rcases hl : (pyStrip s).toList with _ | ⟨x, xs⟩
      · rw [hl] at hbrk
        simp [breakAtEq] at hbrk
      · simp
    simp only [calculate, hne, Bool.false_eq_true, if_false, hbrk, hid]

/-- C10 witness: the comparison `3<=5` hits the assignment branch and fails
on the invalid name "3<". -/
theorem c10_witness :
    (breakAtEq (pyStrip "3<=5").toList).isSome = true ∧
    calculate "3<=5" [] = (.invalidVarName, []) :=
  ⟨c10_equals_always_assignment.1 "3<=5" (by decide),
   c10_equals_always_assignment.2 "3<=5" [] ['3', '<'] ['5'] rfl rfl⟩

/-- The expression of nesting depth n: n opening parentheses, the literal 1,
n closing parentheses. -/
def nestChars (n : Nat) : List Char :=
  List.replicate n '(' ++ '1' :: List.replicate n ')'

theorem mem_nestChars {n : Nat} {c : Char} (h : c ∈ nestChars n) :
    c = '(' ∨ c = '1' ∨ c = ')' := by
  unfold nestChars at h
  rcases List.mem_append.mp h with h1 | h2
  · exact Or.inl (List.eq_of_mem_replicate h1)
  · rcases List.mem_cons.mp h2 with rfl | h3
    · exact Or.inr (Or.inl rfl)
    · exact Or.inr (Or.inr (List.eq_of_mem_replicate h3))

theorem sanitize_nest (n : Nat) :
    sanitize_input (String.mk (nestChars n)) = String.mk (nestChars n) := by
  rw [sanitize_input_eq_spec]
  simp only [sanitizeSpec, toList_mk]
  congr 1
  rw [List.filter_eq_self.mpr ?side]
  case side =>
    intro c hc
    rcases mem_nestChars hc with rfl | rfl | rfl <;> decide
  rw [List.map_congr_left (g := id) ?mapside, List.map_id]
  case mapside =>
    intro c hc
    rcases mem_nestChars hc with rfl | rfl | rfl <;> decide

theorem is_safe_nest (n : Nat) :
    is_safe_expression (String.mk (nestChars n)) = true := by
  apply (is_safe_iff _).mpr
  left
  constructor
  · rw [toList_mk]
    simp [nestChars]
  · intro c hc
    rw [toList_mk] at hc
    rcases mem_nestChars hc with rfl | rfl | rfl <;> decide

theorem outer_step (m lvl : Nat) (md res : List Char) (hlvl : lvl < MAXLEVEL)
    (hmd : parseArith (m + 1) (lvl + 1) md = .ok (.intLit 1, ')' :: res))
    (hres : res = [] ∨ ∃ rs, res = ')' :: rs) :
    parseArith (m + 7) lvl ('(' :: md) = .ok (.intLit 1, res) := by
  have hif : ¬ MAXLEVEL ≤ lvl := Nat.not_le.mpr hlvl
  rw [parseArith.eq_2]
  simp only [parseTerm, parseFactor, parsePower, parseTrailerStart, parseAtom,
    hif, if_false]
  rw [hmd]
  rcases hres with rfl | ⟨rs, rfl⟩ <;> rfl

theorem outer_step_error (m lvl : Nat) (md : List Char) (e : Err)
    (hlvl : lvl < MAXLEVEL)
    (hmd : parseArith (m + 1) (lvl + 1) md = .error e) :
    parseArith (m + 7) lvl ('(' :: md) = .error e := by
  have hif : ¬ MAXLEVEL ≤ lvl := Nat.not_le.mpr hlvl
  rw [parseArith.eq_2]
  simp only [parseTerm, parseFactor, parsePower, parseTrailerStart, parseAtom,
    hif, if_false]
  rw [hmd]

theorem atom_level_error (m lvl : Nat) (cs : List Char) (h : MAXLEVEL ≤ lvl) :
    parseArith (m + 7) lvl ('(' :: cs) = .error .tooManyNested := by
  rw [parseArith.eq_2]
  simp only [parseTerm, parseFactor, parsePower, parseTrailerStart, parseAtom,
    h, if_true]

/-- Parenthesised nesting parses whenever it stays within the tokenizer's
nesting bound, with fuel linear in the depth. -/
theorem parse_nest :
    ∀ (n f lvl : Nat) (rest : List Char), 6 * n + 8 ≤ f →
      lvl + n ≤ MAXLEVEL →
      (rest = [] ∨ ∃ rs, rest = ')' :: rs) →
      parseArith f lvl
          (List.replicate n '(' ++ '1' :: (List.replicate n ')' ++ rest)) =
        .ok (.intLit 1, rest) := by
  intro n
  induction n with
  | zero =>
    intro f lvl rest hf _ hrest
    obtain ⟨m, rfl⟩ : ∃ m, f = m + 8 := ⟨f - 8, by omega⟩
    rcases hrest with rfl | ⟨rs, rfl⟩
    · rfl
    · rfl
  | succ n ih =>
    intro f lvl rest hf hlvl hrest
    obtain ⟨m, rfl⟩ : ∃ m, f = m + 7 := ⟨f - 7, by omega⟩
    have hlist : List.replicate (n + 1) '(' ++ '1' ::
        (List.replicate (n + 1) ')' ++ rest) =
        '(' :: (List.replicate n '(' ++ '1' ::
          (List.replicate n ')' ++ (')' :: rest))) := by
      rw [List.replicate_succ, List.replicate_succ']
      simp [List.append_assoc]
    rw [hlist]
    exact outer_step m lvl _ rest (by omega)
      (ih (m + 1) (lvl + 1) (')' :: rest) (by omega) (by omega)
        (Or.inr ⟨rest, rfl⟩)) hrest

/-- Parenthesised nesting that exceeds the tokenizer's bound fails with the
too-many-nested-parentheses error. -/
theorem parse_nest_deep :
    ∀ (n f lvl : Nat) (rest : List Char), 1 ≤ n → 6 * n + 8 ≤ f →
      MAXLEVEL < lvl + n →
      parseArith f lvl
          (List.replicate n '(' ++ '1' :: (List.replicate n ')' ++ rest)) =
        .error .tooManyNested := by
  intro n
  induction n with
  | zero => intro f lvl rest h1; omega
  | succ n ih =>
    intro f lvl rest _ hf hlvl
    obtain ⟨m, rfl⟩ : ∃ m, f = m + 7 := ⟨f - 7, by omega⟩
    have hlist : List.replicate (n + 1) '(' ++ '1' ::
        (List.replicate (n + 1) ')' ++ rest) =
        '(' :: (List.replicate n '(' ++ '1' ::
          (List.replicate n ')' ++ (')' :: rest))) := by
      rw [List.replicate_succ, List.replicate_succ']
      simp [List.append_assoc]
    rw [hlist]
    by_cases hl : MAXLEVEL ≤ lvl
    · exact atom_level_error m lvl _ hl
    · have h200 : MAXLEVEL = 200 := rfl
      have hn : 1 ≤ n := by omega
      exact outer_step_error m lvl _ _ (by omega)
        (ih (m + 1) (lvl + 1) (')' :: rest) hn (by omega) (by omega))

theorem parseExpr_nest (n : Nat) (hn : n ≤ MAXLEVEL) :
    parseExpr (String.mk (nestChars n)) = .ok (.intLit 1) := by
  simp only [parseExpr, toList_mk]
  have hlen : (nestChars n).length = 2 * n + 1 := by
    simp [nestChars]
    omega
  have h := parse_nest n (8 * ((nestChars n).length + 1)) 0 []
    (by rw [hlen]; omega) (by omega) (Or.inl rfl)
  rw [List.append_nil] at h
  rw [show (List.replicate n '(' ++ '1' :: List.replicate n ')') = nestChars n
    from rfl] at h
  rw [h]

theorem parseExpr_nest_deep (n : Nat) (hn : MAXLEVEL < n) :
    parseExpr (String.mk (nestChars n)) = .error .tooManyNested := by
  simp only [parseExpr, toList_mk]
  have hlen : (nestChars n).length = 2 * n + 1 := by
    simp [nestChars]
    omega
  have h200 : MAXLEVEL = 200 := rfl
  have h := parse_nest_deep n (8 * ((nestChars n).length + 1)) 0 []
    (by omega) (by rw [hlen]; omega) (by omega)
  rw [List.append_nil] at h
  rw [show (List.replicate n '(' ++ '1' :: List.replicate n ')') = nestChars n
    from rfl] at h
  rw [h]

/-- A nested expression within the tokenizer bound evaluates to 1. -/
theorem nest_evaluates (n : Nat) (hn : n ≤ MAXLEVEL) :
    evaluate (String.mk (nestChars n)) [] = .ok (.int 1) := by
  simp only [evaluate, evaluateWithTable, sanitize_nest, is_safe_nest,
    Bool.true_eq_false, if_false, parseExpr_nest n hn]
  obtain ⟨m, hm⟩ : ∃ m, 8 * ((String.mk (nestChars n)).toList.length + 1) =
      m + 1 := ⟨8 * ((String.mk (nestChars n)).toList.length + 1) - 1, by omega⟩
  rw [hm]
  rfl

/-- A nested expression beyond the tokenizer bound fails with the wrapped
too-many-nested-parentheses SyntaxError. -/
theorem nest_too_deep (n : Nat) (hn : MAXLEVEL < n) :
    evaluate (String.mk (nestChars n)) [] = .error .tooManyNested := by
  simp only [evaluate, evaluateWithTable, sanitize_nest, is_safe_nest,
    Bool.true_eq_false, if_false, parseExpr_nest_deep n hn]

/-- C9: the host tokenizer bounds expression nesting at a fixed maximum
depth (CPython's MAXLEVEL = 200): every input of nesting depth beyond that
bound — in particular beyond 256 — fails with the distinct
too-many-nested-parentheses SyntaxError wrapped in the calculator's
ValueError, rather than crashing through stack exhaustion, while every
nesting depth within the bound evaluates normally. -/
theorem c9_depth_bounded :
    (∀ n : Nat, 256 < n →
        evaluate (String.mk (nestChars n)) [] = .error .tooManyNested) ∧
    (∀ n : Nat, MAXLEVEL < n →
        evaluate (String.mk (nestChars n)) [] = .error .tooManyNested) ∧
    (∀ n : Nat, n ≤ MAXLEVEL →
        evaluate (String.mk (nestChars n)) [] = .ok (.int 1)) := by
  refine ⟨?_, nest_too_deep, nest_evaluates⟩
  intro n hn
  have h200 : MAXLEVEL = 200 := rfl
  exact nest_too_deep n (by omega)

/-- C9 witness: depth 257 fails with the depth error; depth 3 evaluates. -/
theorem c9_witness :
    evaluate (String.mk (nestChars 257)) [] = .error .tooManyNested ∧
    evaluate (String.mk (nestChars 3)) [] = .ok (.int 1) :=
  ⟨c9_depth_bounded.1 257 (by omega), c9_depth_bounded.2.2 3 (by decide)⟩

end SecureCalc
